import Mathlib

/-!
# Verification of the bigram typing-preference learning core

A shallow embedding, in Lean 4, of the preference-learning core of the
`bigram_typing_preferences_to_comfort_scores` repository:

* `engram3/data.py` — the `PreferenceDataset` (participant-aware subsetting
  and splitting);
* `engram3/model.py` — the `PreferenceModel` state machine (`fit`,
  `predict_preference`, `evaluate`, `get_feature_weights`,
  `select_features`);
* `engram3/features/feature_importance.py` — the
  `FeatureImportanceCalculator` metric normalization.

Python numbers are modelled as exact rationals or reals (the source uses
floating point; the properties checked here are its idealized arithmetic).
Python exceptions are modelled with `Except` / an explicit error field, and
the distinct exception classes of the source are the constructors of
`PyExn`.  External collaborators (the Stan inference engine, `sklearn`
metrics, the feature provider) are parameters of the definitions that call
them, mirroring the repository's own component boundary.
-/

namespace Engram

/-- The distinct Python exception classes that appear in the modelled code
paths.  `samplerException` stands for whatever exception the external
inference engine raised (the source re-raises it unchanged); `fitError`
stands for the `FitError` class named by the specification, which the source
never raises. -/
inductive PyExn where
  | valueError
  | indexError
  | nameError
  | samplerException
  | fitError
  | notFittedError
  | featureError
  | runtimeError
deriving DecidableEq, Repr

/-- One pairwise judgment, from the `Preference` record (`engram3/utils/config.py`
is not included in the sources; the fields are the ones read by
`engram3/data.py` and `engram3/model.py`, and match spec §3).  The feature
maps and timing fields are not needed by any claim about the dataset
operations and are carried by the model-side definitions instead. -/
structure Preference where
  bigram1 : String
  bigram2 : String
  participant_id : String
  preferred : Bool
deriving DecidableEq, Repr

/-- A `PreferenceDataset`: an ordered list of preferences plus the set of
distinct participant ids (`engram3/data.py`). -/
structure Dataset where
  preferences : List Preference
  participants : Finset String
deriving DecidableEq

deriving instance DecidableEq for Except

/-!
## Dataset subsetting (`PreferenceDataset._create_subset_dataset`)
-/

/-- Python list indexing `xs[i]` for a possibly negative `int` index:
`0 ≤ i < len` reads position `i`, `-len ≤ i < 0` reads position `len + i`,
anything else raises `IndexError` (modelled as `none`). -/
def pyGet (xs : List Preference) (i : Int) : Option Preference :=
  if 0 ≤ i then xs.get? i.toNat
  else if -(xs.length : Int) ≤ i then xs.get? ((xs.length : Int) + i).toNat
  else none

/-- The list comprehension `[self.preferences[i] for i in valid_indices]`:
all lookups in order, the first `IndexError` aborting the whole
comprehension. -/
def pyGetAll (xs : List Preference) : List Int → Option (List Preference)
  | [] => some []
  | i :: is =>
      match pyGet xs i, pyGetAll xs is with
      | some p, some ps => some (p :: ps)
      | _, _ => none

/-- `PreferenceDataset._create_subset_dataset` (`engram3/data.py` lines
283–336).  An empty index list raises `ValueError`; indices `≥ len` are
*dropped* (with a logged warning); if none survive, `ValueError`; an index
below `-len` makes the row lookup raise `IndexError`, which the method's
blanket `except` re-raises.  Otherwise the subset holds exactly the rows at
the surviving indices and its participant set is recomputed from them.
(The copying of config/feature-extraction attributes is omitted: no claim
reads them.) -/
def createSubsetDataset (d : Dataset) (indices : List Int) : Except PyExn Dataset :=
  if indices.length = 0 then .error .valueError
  else
    let valid := indices.filter (fun i => i < (d.preferences.length : Int))
    if valid.length = 0 then .error .valueError
    else
      match pyGetAll d.preferences valid with
      | none => .error .indexError
      | some prefs =>
          .ok { preferences := prefs
                participants := (prefs.map (fun p => p.participant_id)).toFinset }

/-!
## Participant-aware splitting (`PreferenceDataset.split_by_participants`)

The held-out set of participant ids is drawn by `np.random.choice` from the
(seeded, global) numpy random state; for a fixed seed the draw is a fixed
function of the seed, so the draw is passed here as the `testParticipants`
argument.  The split itself then partitions the preference rows by
participant id, never by row index, and recomputes each half's participant
set (`engram3/data.py` lines 147–175).
-/
def splitByParticipants (d : Dataset) (testParticipants : Finset String) :
    Dataset × Dataset :=
  let trainPrefs := d.preferences.filter (fun p => p.participant_id ∉ testParticipants)
  let testPrefs := d.preferences.filter (fun p => p.participant_id ∈ testParticipants)
  ({ preferences := trainPrefs
     participants := (trainPrefs.map (fun p => p.participant_id)).toFinset },
   { preferences := testPrefs
     participants := (testPrefs.map (fun p => p.participant_id)).toFinset })

/-!
## Feature importance metrics (`engram3/features/feature_importance.py`)
-/

/-- The metrics dictionary returned by
`FeatureImportanceCalculator.evaluate_feature`. -/
structure EvalMetrics where
  model_effect : ℚ
  effect_consistency : ℚ
  predictive_power : ℚ
  weight : ℚ
  weight_std : ℚ
  test_accuracy : ℚ
  baseline_accuracy : ℚ
deriving DecidableEq, Repr

/-- The calculator's tracking state
(`FeatureImportanceCalculator._init_tracking_variables`, lines 90–112):
a global running maximum for effect and for consistency, per-category
(control vs main) running maxima, and the memoized baseline accuracy. -/
structure CalcState where
  max_effect_seen : ℚ
  max_consistency_seen : ℚ
  max_effect_control : ℚ
  max_effect_main : ℚ
  max_consistency_control : ℚ
  max_consistency_main : ℚ
  baseline_accuracy : Option ℚ
deriving DecidableEq, Repr

/-- `_init_tracking_variables` / `reset_normalization_factors`: everything
zero, baseline unset. -/
def initCalcState : CalcState :=
  { max_effect_seen := 0
    max_consistency_seen := 0
    max_effect_control := 0
    max_effect_main := 0
    max_consistency_control := 0
    max_consistency_main := 0
    baseline_accuracy := none }

/-- The epsilon of `evaluate_feature` (`1e-10`). -/
def evalEpsilon : ℚ := 1 / 10000000000

/-- `FeatureImportanceCalculator.evaluate_feature` (lines 119–215), with its
external inputs as arguments: `baselineAccIfUnset` is the accuracy of the
control-only baseline model (fit and evaluated only when the memo is unset),
`weightMean`/`weightStd` come from the candidate model's posterior,
`rawConsistency` from `_calculate_effect_consistency`, and `testAccuracy`
from evaluating the candidate model.  Note the per-category maxima
(`_max_effect[category]`, `_max_consistency[category]`) are updated but the
normalizers actually divide by the *global* running maxima
(`_max_effect_seen`, `_max_consistency_seen`). -/
def evaluateFeature (st : CalcState) (isControlFeature : Bool)
    (baselineAccIfUnset weightMean weightStd rawConsistency testAccuracy : ℚ) :
    CalcState × EvalMetrics :=
  let baseline := st.baseline_accuracy.getD baselineAccIfUnset
  let st1 := { st with baseline_accuracy := some baseline }
  let rawEffect := |weightMean|
  let st2 :=
    if isControlFeature then
      { st1 with max_effect_control := max st1.max_effect_control rawEffect }
    else
      { st1 with max_effect_main := max st1.max_effect_main rawEffect }
  let st3 := { st2 with max_effect_seen := max st2.max_effect_seen rawEffect }
  let modelEffect := if 0 < st3.max_effect_seen then rawEffect / st3.max_effect_seen else 0
  let st4 :=
    if isControlFeature then
      { st3 with max_consistency_control := max st3.max_consistency_control rawConsistency }
    else
      { st3 with max_consistency_main := max st3.max_consistency_main rawConsistency }
  let st5 := { st4 with max_consistency_seen := max st4.max_consistency_seen rawConsistency }
  let effectConsistency :=
    if 0 < st5.max_consistency_seen then rawConsistency / st5.max_consistency_seen else 0
  let rawImprovement := max 0 (testAccuracy - baseline)
  let maxPossible := 1 - baseline
  let predictivePower := if evalEpsilon < maxPossible then rawImprovement / maxPossible else 0
  (st5,
   { model_effect := modelEffect
     effect_consistency := effectConsistency
     predictive_power := predictivePower
     weight := weightMean
     weight_std := weightStd
     test_accuracy := testAccuracy
     baseline_accuracy := baseline })

/-- Modelled from the spec: the normalization §4.3 describes — "each
normalized against the maximum value seen so far across the whole selection
run (running max, not per-round), separately for control vs main categories"
— i.e. the raw effect divided by the running maximum of the *same category*.
Defined for comparison with `evaluateFeature`, which divides by the global
maximum instead. -/
def normalizedEffectSpec (st : CalcState) (isControlFeature : Bool) (rawEffect : ℚ) : ℚ :=
  let catMax :=
    if isControlFeature then max st.max_effect_control rawEffect
    else max st.max_effect_main rawEffect
  if 0 < catMax then rawEffect / catMax else 0

/-!
## Round-robin feature selection (`PreferenceModel.select_features`,
`engram3/model.py` lines 1143–1296, and `_is_feature_better`, lines
1298–1326)

Each round fits one model per remaining candidate (an external sampling run)
and scores it with `evaluate_feature`; the resulting metrics are abstracted
here as the oracle `metricsOf : List String → String → EvalMetrics`, a
function of the current selected set and the candidate.
-/

/-- `PreferenceModel._is_feature_better`: majority vote over the three
metrics (ties on a metric count for neither side, so equal metrics make
feature A lose). -/
def isFeatureBetter (a b : EvalMetrics) : Bool :=
  let winsEffect : Nat := if |a.model_effect| > |b.model_effect| then 1 else 0
  let winsConsistency : Nat := if a.effect_consistency > b.effect_consistency then 1 else 0
  let winsPredictive : Nat := if a.predictive_power > b.predictive_power then 1 else 0
  winsEffect + winsConsistency + winsPredictive ≥ 2

/-- `itertools.combinations(remaining, 2)`: the ordered pairs `(xᵢ, xⱼ)` with
`i < j`. -/
def orderedPairs : List String → List (String × String)
  | [] => []
  | x :: xs => xs.map (fun y => (x, y)) ++ orderedPairs xs

/-- The winner of one pairwise comparison: feature 1 if it is better on a
majority of metrics, else feature 2. -/
def pairWinner (m : String → EvalMetrics) (p : String × String) : String :=
  if isFeatureBetter (m p.1) (m p.2) then p.1 else p.2

/-- The round's win count of one feature over all pairwise comparisons. -/
def winCount (m : String → EvalMetrics) (remaining : List String) (f : String) : Nat :=
  (orderedPairs remaining).countP (fun p => pairWinner m p = f)

/-- Python's `max(items, key=...)` over a nonempty list: the first element
with maximal score (a strictly greater score displaces the running best). -/
def argmaxFirst (score : String → Nat) : List String → Option String
  | [] => none
  | x :: xs => some (xs.foldl (fun best y => if score y > score best then y else best) x)

/-- `list(dict.fromkeys(xs))`: deduplication keeping the first occurrence of
each element, in order. -/
def dedupFirst : List String → List String
  | [] => []
  | x :: xs => x :: (dedupFirst xs).filter (fun y => y ≠ x)

/-- The effect of `self.fit(dataset, features)` on `self.selected_features`
(`engram3/model.py` lines 210–214): the deduplicated main features of the
fitted set followed by the control features. -/
def fitSelected (ctrl features : List String) : List String :=
  dedupFirst (features.filter (fun f => f ∉ ctrl) ++ ctrl)

/-- The candidate-evaluation loop of one selection round (lines 1215–1235):
each candidate is fitted via `self.fit(dataset, self.selected_features +
[feature])` — which *overwrites* `self.selected_features` with the
candidate-augmented set (line 214; the later fits inside the consistency
cross-validation rewrite it to the same value) — and then scored.  Returns
the final (candidate-absorbing) `selected_features` together with the
round's `feature_metrics` in evaluation order, the score abstracted as the
oracle `metricsOf` applied to the post-fit selected set and the
candidate. -/
def absorbCandidates (metricsOf : List String → String → EvalMetrics)
    (ctrl : List String) :
    List String → List String → List String × List (String × EvalMetrics)
  | selected, [] => (selected, [])
  | selected, f :: fs =>
      let s1 := fitSelected ctrl (selected ++ [f])
      let r := absorbCandidates metricsOf ctrl s1 fs
      (r.1, (f, metricsOf s1 f) :: r.2)

/-- `feature_metrics[f]` from the round's evaluation list (every remaining
candidate has an entry; the default is unreachable and only totalizes the
lookup). -/
def metricsLookup (ms : List (String × EvalMetrics)) (f : String) : EvalMetrics :=
  ((ms.find? (fun e => decide (e.1 = f))).map (fun e => e.2)).getD
    { model_effect := 0, effect_consistency := 0, predictive_power := 0,
      weight := 0, weight_std := 0, test_accuracy := 0, baseline_accuracy := 0 }

/-- The `while True` selection loop (lines 1195–1262): each round
re-computes the remaining candidates against the *current* (already
fit-mutated) selected set, runs the candidate evaluations — absorbing every
candidate into `selected_features` through their fits — and then appends
the candidate with the most pairwise wins to the absorbed set.  It exits
when no candidates remain; since the absorption empties the remaining set
after any productive round, the given fuel (one unit per candidate plus
one) is never exhausted. -/
def selectLoop (metricsOf : List String → String → EvalMetrics)
    (ctrl mainFeats : List String) : Nat → List String → List String
  | 0, selected => selected
  | fuel + 1, selected =>
      let remaining := mainFeats.filter (fun f => f ∉ selected)
      let r := absorbCandidates metricsOf ctrl selected remaining
      match argmaxFirst (winCount (metricsLookup r.2) remaining) remaining with
      | none => selected
      | some best => selectLoop metricsOf ctrl mainFeats fuel (r.1 ++ [best])

/-- `PreferenceModel.select_features`: start from the control features, run
the round loop, and afterwards, if no main feature was ever selected, enter
the force-selection branch — which reads the local `feature_metrics`; that
local is only bound inside a round body, and the branch is reached exactly
when no round body ever ran, so it raises `NameError`. -/
def selectFeatures (metricsOf : List String → String → EvalMetrics)
    (controlFeatures allFeatures : List String) : Except PyExn (List String) :=
  let selected0 := controlFeatures
  let mainFeats := allFeatures.filter (fun f => f ∉ controlFeatures)
  let sel := selectLoop metricsOf controlFeatures mainFeats (mainFeats.length + 1) selected0
  if sel.any (fun f => f ∉ controlFeatures) then .ok sel
  else .error .nameError

/-!
## The preference model state machine (`engram3/model.py`)
-/

/-- A Python feature dict (`Dict[str, float]`), as an association list whose
first binding for a key is its value; `dict[k] = v` prepends. -/
def FeatureMap : Type := List (String × ℝ)

/-- Dict lookup `m.get(k)` / `m[k]` (the latter raising `KeyError` on
`none`). -/
def lookupF (m : FeatureMap) (k : String) : Option ℝ :=
  (List.find? (fun e => decide (e.1 = k)) m).map (fun e => e.2)

/-- Dict assignment `m[k] = v`. -/
def insertF (m : FeatureMap) (k : String) (v : ℝ) : FeatureMap :=
  (k, v) :: m

/-- The posterior samples returned by the inference engine: one row per
sample, one column per main feature (`beta`) / control feature (`gamma`). -/
structure Posterior where
  beta : List (List ℝ)
  gamma : List (List ℝ)

/-- A `ModelPrediction` (spec §3).  `computation_time` is wall-clock time in
the source and is fixed to `0` here. -/
structure Prediction where
  probability : ℝ
  uncertainty : ℝ
  features_used : List String
  computation_time : ℝ

/-- The prediction cache: `CacheManager` is in `engram3/utils/caching.py`,
which is not among the sources.  Modelled from the spec: a bounded key→value
store (spec §2, §5); `get` returns the stored value for the key, `set`
stores it.  The ~10% eviction of the size-capped store never triggers at the
sizes used in the theorems and is omitted. -/
def PredictionCache : Type := List ((String × String) × Prediction)

/-- Cache `get`. -/
def cacheGet (c : PredictionCache) (k : String × String) : Option Prediction :=
  (List.find? (fun e => decide (e.1 = k)) c).map (fun e => e.2)

/-- Cache `set`. -/
def cacheSet (c : PredictionCache) (k : String × String) (v : Prediction) :
    PredictionCache :=
  (k, v) :: List.filter (fun e => decide (e.1 ≠ k)) c

/-- The mutable state of a `PreferenceModel` instance: the configuration
fields read by the modelled methods (`control_features`, `interactions`),
the `is_baseline_model` flag, and the attributes set by `__init__` and
mutated by `fit` (`engram3/model.py` lines 96–157, 186–272).  The feature
extractor is the external feature provider, as a function from a bigram to
its feature dict. -/
structure ModelState where
  control_features : List String
  interactions : List (List String)
  is_baseline_model : Bool
  dataset : Option Dataset
  feature_names : Option (List String)
  selected_features : List String
  fit_result : Option Posterior
  feature_weights : Option (List (String × ℝ × ℝ))
  feature_extractor : Option (String → FeatureMap)
  prediction_cache : PredictionCache

/-- The state right after `__init__`: no dataset, no fit, empty caches. -/
def initialModelState (controlFeatures : List String)
    (interactions : List (List String)) : ModelState :=
  { control_features := controlFeatures
    interactions := interactions
    is_baseline_model := false
    dataset := none
    feature_names := none
    selected_features := []
    fit_result := none
    feature_weights := none
    feature_extractor := none
    prediction_cache := [] }

/-- `np.dot` of two equal-length vectors. -/
def dotProd (xs ys : List ℝ) : ℝ :=
  (List.zipWith (fun a b => a * b) xs ys).sum

/-- `np.mean` (with the `0/0 = 0` convention on an empty list; the source
never takes the mean of an empty array on the modelled paths). -/
noncomputable def listMean (xs : List ℝ) : ℝ :=
  xs.sum / xs.length

/-- `np.std`: the population standard deviation. -/
noncomputable def listStd (xs : List ℝ) : ℝ :=
  Real.sqrt (listMean (xs.map (fun x => (x - listMean xs) ^ 2)))

/-- The logistic link `1 / (1 + exp(-x))` of `predict_preference`. -/
noncomputable def logistic (x : ℝ) : ℝ :=
  1 / (1 + Real.exp (-x))

/-- The mean of one posterior-sample column (`np.mean(beta[:, i])`). -/
noncomputable def colMean (rows : List (List ℝ)) (i : Nat) : ℝ :=
  listMean (rows.map (fun r => r.getD i 0))

/-- The standard deviation of one posterior-sample column
(`np.std(beta[:, i])`). -/
noncomputable def colStd (rows : List (List ℝ)) (i : Nat) : ℝ :=
  listStd (rows.map (fun r => r.getD i 0))

/-- `PreferenceModel._update_feature_weights` (lines 274–334): one
(mean, std) pair per deduplicated main feature from the `beta` columns
(guarded by the column count), then one per control feature from the
`gamma` columns. -/
noncomputable def extractWeights (post : Posterior)
    (mainFeatures controlFeatures : List String) : List (String × ℝ × ℝ) :=
  let betaCols := (post.beta.headD []).length
  (mainFeatures.enum.filterMap
    (fun fi => if fi.1 < betaCols then
        some (fi.2, colMean post.beta fi.1, colStd post.beta fi.1)
      else none))
  ++ controlFeatures.enum.map
      (fun fi => (fi.2, colMean post.gamma fi.1, colStd post.gamma fi.1))

/-- The outcome of a `fit` call: the post-call state and the exception it
raised, if any. -/
structure FitOutcome where
  state : ModelState
  error : Option PyExn

/-- `PreferenceModel.fit` (lines 186–272).  `datasetFeatures` stands for
`dataset.get_feature_names()` (used when `features` is empty) and
`datasetExtractor` for `dataset.feature_extractor`; `sampler` is the single
call to the external inference engine (`self.model.sample`): `none` means
the attempt (or the data preparation feeding it) raised.  Before the
sampling attempt the method overwrites `self.dataset`,
`self.feature_extractor`, `self.feature_names` and `self.selected_features`
(lines 199–214: both set to the deduplicated main+control list) and then
calls `prepare_data`, whose first statement (line 642) overwrites
`self.feature_names` again with the *raw* feature list.  There is no retry,
and on failure the `except` block logs, cleans temp files, and re-raises
the *original* exception — it never raises `FitError`, never restores the
overwritten attributes, and never touches the prediction cache. -/
noncomputable def fit (s : ModelState) (d : Dataset)
    (datasetExtractor : Option (String → FeatureMap))
    (datasetFeatures features : List String)
    (sampler : Option Posterior) : FitOutcome :=
  let s0 := { s with dataset := some d, feature_extractor := datasetExtractor }
  let feats := if features.isEmpty then datasetFeatures else features
  if feats.isEmpty then { state := s0, error := some .valueError }
  else
    let ctrl := s.control_features
    let mainF := feats.filter (fun f => f ∉ ctrl)
    let names := dedupFirst (mainF ++ ctrl)
    let s1 := { s0 with feature_names := some names, selected_features := names }
    -- prepare_data (line 642) immediately re-overwrites feature_names with
    -- the raw feature list, before anything in it that can raise
    let s2 := { s1 with feature_names := some feats }
    match sampler with
    | none => { state := s2, error := some .samplerException }
    | some post =>
        let w := extractWeights post (dedupFirst mainF) ctrl
        { state := { s2 with fit_result := some post, feature_weights := some w }
          error := none }

/-- `PreferenceModel.get_feature_weights` (lines 1066–1138): raises
`NotFittedError` when unfit; otherwise returns the cached weight table
(filtering out control features unless `includeControl`), falling back to
re-extracting the weights from the fit result's summary (the same posterior
means/stds as `_update_feature_weights`; the write-back memoization of that
fallback is omitted — no claim reads it).  With no `feature_names` the
fallback's iteration fails and the `except` re-raises as `FeatureError`. -/
noncomputable def getFeatureWeights (s : ModelState) (includeControl : Bool) :
    Except PyExn (List (String × ℝ × ℝ)) :=
  match s.fit_result with
  | none => .error .notFittedError
  | some post =>
      match s.feature_weights with
      | some w =>
          if includeControl then .ok w
          else .ok (w.filter (fun kv => kv.1 ∉ s.control_features))
      | none =>
          match s.feature_names with
          | none => .error .featureError
          | some names =>
              let mainF := names.filter (fun f => f ∉ s.control_features)
              let w := extractWeights post mainF
                (if includeControl then s.control_features else [])
              if includeControl then .ok w
              else .ok (w.filter (fun kv => kv.1 ∉ s.control_features))

/-!
## Preference prediction (`PreferenceModel.predict_preference`, lines
1489–1606)
-/

/-- The composite name of an interaction: `'_x_'.join(sorted(interaction))`. -/
def interName (inter : List String) : String :=
  String.intercalate "_x_" (inter.mergeSort (fun a b => decide (a ≤ b)))

/-- `[m[c] for c in cs]`: dict lookups in order, the first `KeyError`
aborting the comprehension. -/
def lookupAll (m : FeatureMap) : List String → Option (List ℝ)
  | [] => some []
  | c :: cs =>
      match lookupF m c, lookupAll m cs with
      | some v, some vs => some (v :: vs)
      | _, _ => none

/-- The interaction loop of `predict_preference` (lines 1541–1553): for each
configured interaction, if some component is missing from `features1` the
interaction is skipped (`continue`); otherwise, when its composite name is
among the selected features, both dicts get the product of their component
values (`np.prod([features[f] for f in interaction])`) — on `features1` all
components are present by the check just made, while a component missing
from `features2` raises `KeyError` (modelled as `none`), which the method's
`except` turns into the neutral prediction. -/
def augmentInteractions (selected : List String) :
    List (List String) → FeatureMap → FeatureMap → Option (FeatureMap × FeatureMap)
  | [], f1, f2 => some (f1, f2)
  | inter :: rest, f1, f2 =>
      if inter.any (fun c => (lookupF f1 c).isNone) then
        augmentInteractions selected rest f1 f2
      else
        if interName inter ∈ selected then
          match lookupAll f1 inter, lookupAll f2 inter with
          | some vs1, some vs2 =>
              augmentInteractions selected rest
                (insertF f1 (interName inter) vs1.prod)
                (insertF f2 (interName inter) vs2.prod)
          | _, _ => none
        else augmentInteractions selected rest f1 f2

/-- `[features1[f] - features2[f] for f in feats]`, raising `KeyError`
(`none`) if either dict lacks a feature. -/
def diffsOf (f1 f2 : FeatureMap) : List String → Option (List ℝ)
  | [] => some []
  | f :: fs =>
      match lookupF f1 f, lookupF f2 f, diffsOf f1 f2 fs with
      | some a, some b, some ds => some ((a - b) :: ds)
      | _, _, _ => none

/-- The pair `(total_effect, uncertainty)` built from successful main and
control difference vectors, each dotted with the posterior samples: the
sample means sum to `total_effect` (lines 1562–1576; the `if` guards mirror
`if main_features:` / `if control_features:`), the sample standard
deviations to `uncertainty`. -/
noncomputable def effectFromDiffs (s : ModelState) (post : Posterior)
    (md cd : List ℝ) : ℝ × ℝ :=
  ((if (s.selected_features.filter (fun f => f ∉ s.control_features)).isEmpty
      then 0 else listMean (post.beta.map (fun row => dotProd md row)))
    + (if s.control_features.isEmpty then 0
      else listMean (post.gamma.map (fun row => dotProd cd row))),
   (if (s.selected_features.filter (fun f => f ∉ s.control_features)).isEmpty
      then 0 else listStd (post.beta.map (fun row => dotProd md row)))
    + (if s.control_features.isEmpty then 0
      else listStd (post.gamma.map (fun row => dotProd cd row))))

/-- The effect stage of `predict_preference` (lines 1558–1576), applied to
the two interaction-augmented feature dicts: per-feature differences for
the selected main features and for the control features (a `KeyError` —
`none` here — being caught by the method's `except` into the neutral
prediction), then the effect and uncertainty from those differences. -/
noncomputable def effectOfPair (s : ModelState) (post : Posterior)
    (g1 g2 : FeatureMap) : Option (ℝ × ℝ) :=
  match diffsOf g1 g2 (s.selected_features.filter (fun f => f ∉ s.control_features)),
      diffsOf g1 g2 s.control_features with
  | some md, some cd => some (effectFromDiffs s post md cd)
  | _, _ => none

/-- The body of `predict_preference`'s `try` block after the cache miss
(lines 1536–1584): extract both bigrams' features, run the interaction
loop, then the effect stage.  Returns `(total_effect, uncertainty)`, or
`none` for any `KeyError` the method's `except` would catch into the
neutral prediction. -/
noncomputable def coreEffect (s : ModelState) (post : Posterior)
    (ext : String → FeatureMap) (b1 b2 : String) : Option (ℝ × ℝ) :=
  match augmentInteractions s.selected_features s.interactions (ext b1) (ext b2) with
  | none => none
  | some g => effectOfPair s post g.1 g.2

/-- The neutral prediction returned whenever the `try` body of
`predict_preference` raises (lines 1598–1606). -/
noncomputable def neutralPrediction : Prediction :=
  { probability := 1 / 2
    uncertainty := 1
    features_used := []
    computation_time := 0 }

/-- The successful tail of `predict_preference` (lines 1578–1596): the
total effect mapped through the logistic link, packaged as a
`ModelPrediction`, which is cached under the ordered pair before being
returned. -/
noncomputable def predictedOf (s : ModelState) (tu : ℝ × ℝ) : Prediction :=
  { probability := logistic tu.1
    uncertainty := tu.2
    features_used := s.selected_features
    computation_time := 0 }

noncomputable def predictSuccess (s : ModelState) (b1 b2 : String) (tu : ℝ × ℝ) :
    Prediction × ModelState :=
  (predictedOf s tu,
   { s with prediction_cache :=
       cacheSet s.prediction_cache (b1, b2) (predictedOf s tu) })

/-- The tail of `predict_preference` once the feature extractor is at hand
(lines 1514–1596): a non-baseline model with no selected main feature
raises `ValueError` (caught → neutral); otherwise the effect computation
runs, a `KeyError` anywhere degrading to neutral and a success returning
the logistic-linked, cached prediction. -/
noncomputable def predictWithExtractor (s : ModelState) (post : Posterior)
    (ext : String → FeatureMap) (b1 b2 : String) :
    Except PyExn (Prediction × ModelState) :=
  if (s.selected_features.filter (fun f => f ∉ s.control_features)).isEmpty
      ∧ ¬ s.is_baseline_model then .ok (neutralPrediction, s)
  else
    match coreEffect s post ext b1 b2 with
    | none => .ok (neutralPrediction, s)
    | some tu => .ok (predictSuccess s b1 b2 tu)

/-- The cache-miss tail of `predict_preference`: a missing feature
extractor surfaces as an `AttributeError`, caught into the neutral
prediction. -/
noncomputable def predictUncached (s : ModelState) (post : Posterior) (b1 b2 : String) :
    Except PyExn (Prediction × ModelState) :=
  match s.feature_extractor with
  | none => .ok (neutralPrediction, s)
  | some ext => predictWithExtractor s post ext b1 b2

/-- The `try` body of `predict_preference` on a fitted model: the bigram
length validation (`ValueError`, caught → neutral), then the cache
lookup. -/
noncomputable def predictFitted (s : ModelState) (post : Posterior) (b1 b2 : String) :
    Except PyExn (Prediction × ModelState) :=
  if b1.length ≠ 2 ∨ b2.length ≠ 2 then .ok (neutralPrediction, s)
  else
    match cacheGet s.prediction_cache (b1, b2) with
    | some p => .ok (p, s)
    | none => predictUncached s post b1 b2

/-- `PreferenceModel.predict_preference` (lines 1489–1606).  An unfit model
raises `NotFittedError` — the only exception the method propagates, its
guard sitting before the `try`; every failure inside the `try` is caught by
the blanket `except` into the neutral prediction (which is *not* cached). -/
noncomputable def predictPreference (s : ModelState) (b1 b2 : String) :
    Except PyExn (Prediction × ModelState) :=
  match s.fit_result with
  | none => .error .notFittedError
  | some post => predictFitted s post b1 b2

/-- The result dictionary of `PreferenceModel.evaluate`. -/
structure EvalResult where
  accuracy : ℝ
  auc : ℝ
  n_evaluated : Nat

/-- `PreferenceModel.evaluate` (lines 336–399).  The whole body sits in a
`try` whose `except` returns the chance-level defaults, so the method never
raises: in particular on an unfit model the internal
`RuntimeError("Model must be fit before evaluation")` is swallowed and the
defaults come back instead of a `NotFittedError`.  On a fitted model it
predicts every preference (per-preference failures are skipped; the
embedding has no NaN, so no prediction is dropped by the NaN filter),
returns the defaults if nothing was predicted, and otherwise the share of
predictions on the correct side of 1/2 together with the AUC — the latter
computed by the external `sklearn.metrics.roc_auc_score`, passed in as
`aucScore`. -/
noncomputable def evaluate (aucScore : List ℝ → List ℝ → ℝ)
    (s : ModelState) (d : Dataset) : EvalResult × ModelState :=
  match s.fit_result with
  | none => ({ accuracy := 1 / 2, auc := 1 / 2, n_evaluated := 0 }, s)
  | some _ =>
      let step := fun (acc : List (ℝ × ℝ) × ModelState) (pref : Preference) =>
        match predictPreference acc.2 pref.bigram1 pref.bigram2 with
        | .ok pr => (acc.1 ++ [(pr.1.probability, if pref.preferred then 1 else 0)], pr.2)
        | .error _ => acc
      let out := d.preferences.foldl step ([], s)
      if out.1.isEmpty then ({ accuracy := 1 / 2, auc := 1 / 2, n_evaluated := 0 }, out.2)
      else
        let correct : ℝ × ℝ → ℝ := fun pr =>
          if (1 / 2 < pr.1 ∧ pr.2 = 1) ∨ (¬ (1 / 2 < pr.1) ∧ pr.2 ≠ 1) then 1 else 0
        ({ accuracy := listMean (out.1.map correct),
           auc := aucScore (out.1.map (fun pr => pr.2)) (out.1.map (fun pr => pr.1)),
           n_evaluated := out.1.length }, out.2)

/-!
## Concrete fixtures used by witnesses and counterexamples
-/

/-- A first sample preference row. -/
def pref1 : Preference :=
  { bigram1 := "ab", bigram2 := "cd", participant_id := "u1", preferred := true }

/-- A second sample preference row. -/
def pref2 : Preference :=
  { bigram1 := "ef", bigram2 := "gh", participant_id := "u2", preferred := false }

/-- A two-row, two-participant sample dataset. -/
def dsEx : Dataset :=
  { preferences := [pref1, pref2], participants := {"u1", "u2"} }

/-- A metrics oracle that scores every candidate identically. -/
def constMetricsEx : List String → String → EvalMetrics :=
  fun _ _ =>
    { model_effect := 0, effect_consistency := 0, predictive_power := 0,
      weight := 0, weight_std := 0, test_accuracy := 0, baseline_accuracy := 0 }

/-!
## C7 — participant-disjoint, seed-deterministic splitting
-/

/-- C7: `split_by_participants` selects whole participant ids for the
held-out set, so the two returned datasets have disjoint participant sets,
and — the drawn id set being a fixed function of the random seed — equal
draws give equal splits. -/
theorem splitByParticipants_disjoint_deterministic (d : Dataset)
    (tp tp' : Finset String) (hseed : tp = tp') :
    (splitByParticipants d tp).1.participants ∩
      (splitByParticipants d tp).2.participants = ∅ ∧
    splitByParticipants d tp = splitByParticipants d tp' := by
  subst hseed
  refine ⟨?_, rfl⟩
  ext x
  simp only [splitByParticipants, Finset.mem_inter, List.mem_toFinset, List.mem_map,
    List.mem_filter, Finset.not_mem_empty, iff_false, not_and]
  rintro ⟨p, ⟨-, hp⟩, rfl⟩ ⟨q, ⟨-, hq⟩, hq2⟩
  rw [← hq2] at hp
  simp only [decide_eq_true_eq] at hp hq
  exact hp hq

/-- Witness for C7 at a concrete dataset and draw. -/
theorem splitByParticipants_disjoint_deterministic_witness :
    (splitByParticipants dsEx {"u2"}).1.participants ∩
      (splitByParticipants dsEx {"u2"}).2.participants = ∅ ∧
    splitByParticipants dsEx {"u2"} = splitByParticipants dsEx {"u2"} :=
  splitByParticipants_disjoint_deterministic dsEx {"u2"} {"u2"} rfl

/-!
## C8 — subset index validation
-/

/-- Counterexample to C8: an index set containing the out-of-range index 7
(the sample dataset has 2 rows) does *not* raise `ValueError`; the
out-of-range index is silently dropped and the subset of the surviving
index is returned. -/
theorem createSubsetDataset_out_of_range_counterexample :
    ¬ ((7 : Int) < (dsEx.preferences.length : Int)) ∧
    createSubsetDataset dsEx [0, 7] =
      .ok { preferences := [pref1], participants := {"u1"} } := by
  decide

/-- C8 as amended: `ValueError` for an empty index set and when every index
is out of range; otherwise the indices `≥ len` are dropped and the subset
holds exactly the rows at the surviving indices, with its participant set
recomputed from those rows. -/
theorem createSubsetDataset_spec (d : Dataset) (indices : List Int) :
    (indices = [] → createSubsetDataset d indices = .error .valueError) ∧
    (indices.filter (fun i => i < (d.preferences.length : Int)) = [] →
      createSubsetDataset d indices = .error .valueError) ∧
    (∀ ds, createSubsetDataset d indices = .ok ds →
      pyGetAll d.preferences
          (indices.filter (fun i => i < (d.preferences.length : Int))) =
        some ds.preferences ∧
      ds.participants = (ds.preferences.map (fun p => p.participant_id)).toFinset) := by
  refine ⟨?_, ?_, ?_⟩
  · rintro rfl
    simp [createSubsetDataset]
  · intro hfil
    by_cases hemp : indices.length = 0
    · simp [createSubsetDataset, hemp]
    · simp [createSubsetDataset, hemp, hfil]
  · intro ds hok
    by_cases hemp : indices.length = 0
    · simp [createSubsetDataset, hemp] at hok
    · rcases hfil : indices.filter (fun i => i < (d.preferences.length : Int)) with _ | ⟨j, js⟩
      · simp [createSubsetDataset, hemp, hfil] at hok
      · rcases hmap : pyGetAll d.preferences (j :: js) with _ | prefs
        · simp [createSubsetDataset, hemp, hfil, hmap] at hok
        · simp only [createSubsetDataset, hemp, if_false, hfil, List.length_cons,
            Nat.succ_ne_zero, hmap] at hok
          injection hok with hds
          subst hds
          exact ⟨rfl, rfl⟩

/-- Witness for C8 (amended): the error cases and the success case at
concrete inputs, all obtained from the theorem. -/
theorem createSubsetDataset_spec_witness :
    createSubsetDataset dsEx [] = .error .valueError ∧
    createSubsetDataset dsEx [5, 9] = .error .valueError ∧
    pyGetAll dsEx.preferences
        ([(0 : Int), 7].filter (fun i => i < (dsEx.preferences.length : Int))) =
      some [pref1] :=
  ⟨(createSubsetDataset_spec dsEx []).1 rfl,
   (createSubsetDataset_spec dsEx [5, 9]).2.1 (by decide),
   ((createSubsetDataset_spec dsEx [0, 7]).2.2
      { preferences := [pref1], participants := {"u1"} } (by decide)).1⟩

/-!
## C10 — negative indices are accepted and count from the end
-/

/-- C10: the bounds check of `_create_subset_dataset` only removes indices
`≥ len`, so a negative index `-len ≤ i ≤ -1` passes it, and the Python row
lookup resolves it to position `len + i`: the call succeeds and returns the
row that far from the end. -/
theorem createSubsetDataset_negative_index (d : Dataset) (i : Int)
    (h1 : -(d.preferences.length : Int) ≤ i) (h2 : i ≤ -1) :
    ∃ p, d.preferences.get? ((d.preferences.length : Int) + i).toNat = some p ∧
      createSubsetDataset d [i] =
        .ok { preferences := [p], participants := {p.participant_id} } := by
  have hlen : 0 < d.preferences.length := by omega
  have hpos : ((d.preferences.length : Int) + i).toNat < d.preferences.length := by omega
  rcases List.get?_eq_get hpos with hget
  refine ⟨d.preferences.get ⟨((d.preferences.length : Int) + i).toNat, hpos⟩, hget, ?_⟩
  have hneg : ¬ (0 : Int) ≤ i := by omega
  have hfil : ([i].filter (fun j => j < (d.preferences.length : Int))) = [i] := by
    simp only [List.filter_cons, List.filter_nil, decide_eq_true_eq]
    rw [if_pos (by omega)]
  have hpy : pyGet d.preferences i =
      some (d.preferences.get ⟨((d.preferences.length : Int) + i).toNat, hpos⟩) := by
    simp only [pyGet, hneg, if_false, if_pos h1, hget]
  simp only [createSubsetDataset, List.length_cons, List.length_nil, hfil]
  norm_num [hpy, pyGetAll]

/-- Witness for C10 at index `-1` of the concrete dataset. -/
theorem createSubsetDataset_negative_index_witness :
    (-(dsEx.preferences.length : Int) ≤ -1 ∧ (-1 : Int) ≤ -1) ∧
    ∃ p, dsEx.preferences.get? ((dsEx.preferences.length : Int) + -1).toNat = some p ∧
      createSubsetDataset dsEx [-1] =
        .ok { preferences := [p], participants := {p.participant_id} } :=
  ⟨by decide, createSubsetDataset_negative_index dsEx (-1) (by decide) (by decide)⟩

/-!
## C4 — the metric normalizer is global, not per-category
-/

/-- Modelled from the spec (§4.3): the per-category normalization the
specification describes — each raw value divided by the running maximum of
its *own* category after seeing the value.  `evaluateFeature` is compared
against this. -/
def perCategoryNormalized (categoryMaxBefore raw : ℚ) : ℚ :=
  let m := max categoryMaxBefore raw
  if 0 < m then raw / m else 0

/-- C4 (code bug): after a control feature with raw effect 4 and raw
consistency 1 is evaluated, a main feature with raw effect 1 and raw
consistency 1/2 is normalized against the *global* running maxima (giving
1/4 and 1/2) even though the per-category maxima the code also maintains —
and the specification prescribes — would give 1 for both; the control
feature's raw values thus do enter the normalizer applied to a main
feature. -/
theorem evaluateFeature_normalizes_globally :
    ((evaluateFeature (evaluateFeature initCalcState true (1/2) 4 1 1 (1/2)).1
        false (1/2) 1 1 (1/2) (1/2)).2.model_effect = 1/4 ∧
      (evaluateFeature (evaluateFeature initCalcState true (1/2) 4 1 1 (1/2)).1
        false (1/2) 1 1 (1/2) (1/2)).2.effect_consistency = 1/2) ∧
    (perCategoryNormalized
        (evaluateFeature initCalcState true (1/2) 4 1 1 (1/2)).1.max_effect_main 1 = 1 ∧
      perCategoryNormalized
        (evaluateFeature initCalcState true (1/2) 4 1 1 (1/2)).1.max_consistency_main
        (1/2) = 1) := by
  simp only [evaluateFeature, initCalcState, perCategoryNormalized, evalEpsilon]
  norm_num

/-!
## C9 — the force-selection branch raises `NameError`
-/

/-- C9 (code bug): with no main-feature candidate supplied the tournament
loop never runs a round, so no main feature is ever selected and the
force-selection branch executes — where it reads the round-local
`feature_metrics`, which was never bound, raising `NameError` instead of
force-selecting anything. -/
theorem selectFeatures_force_branch_name_error :
    selectFeatures constMetricsEx ["freq"] ["freq"] = .error .nameError := by
  decide

/-!
## C1 — behaviour of `fit` on a failed sampling attempt
-/

/-- An unfit model with one control feature, as `__init__` leaves it. -/
def unfitModelEx : ModelState := initialModelState ["freq"] []

/-- Counterexample to C1 at a concrete input: when the sampling attempt
fails, `fit` does not raise `FitError` (it re-raises the engine's own
exception; there is no retry loop to exhaust), and the model's
`selected_features` is not as it was before the call — it has already been
overwritten. -/
theorem fit_failure_counterexample :
    (fit unfitModelEx dsEx none [] ["rolls"] none).error ≠ some PyExn.fitError ∧
    (fit unfitModelEx dsEx none [] ["rolls"] none).state.selected_features ≠
      unfitModelEx.selected_features := by
  constructor
  · intro h
    simp [fit, unfitModelEx, initialModelState] at h
  · intro h
    simp [fit, unfitModelEx, initialModelState, dedupFirst] at h

/-- C1 as amended: there is a single sampling attempt (no retries, no
relaxed configurations); when it fails, `fit` re-raises the engine's
exception rather than a `FitError`, and partial state *is* retained —
`dataset` and `feature_extractor` are overwritten with the new call's
values, `selected_features` with the deduplicated main+control list, and
`feature_names` ends as the *raw* feature list (`prepare_data` overwrites
the deduplicated value set moments earlier), while `fit_result`,
`feature_weights` and the prediction cache keep their prior values. -/
theorem fit_failure_state (s : ModelState) (d : Dataset)
    (dext : Option (String → FeatureMap)) (dfeats features : List String)
    (h : (if features.isEmpty then dfeats else features) ≠ []) :
    (fit s d dext dfeats features none).error = some PyExn.samplerException ∧
    (fit s d dext dfeats features none).state.dataset = some d ∧
    (fit s d dext dfeats features none).state.feature_extractor = dext ∧
    (fit s d dext dfeats features none).state.feature_names =
      some (if features.isEmpty then dfeats else features) ∧
    (fit s d dext dfeats features none).state.selected_features =
      dedupFirst ((if features.isEmpty then dfeats else features).filter
        (fun f => f ∉ s.control_features) ++ s.control_features) ∧
    (fit s d dext dfeats features none).state.fit_result = s.fit_result ∧
    (fit s d dext dfeats features none).state.feature_weights = s.feature_weights ∧
    (fit s d dext dfeats features none).state.prediction_cache = s.prediction_cache := by
  have hne : (if features = [] then dfeats else features) ≠ [] := by
    rcases features with _ | ⟨f, fs⟩
    · simpa using h
    · simp
  simp [fit, hne]

/-- Witness for C1 (amended) at a concrete unfit model and dataset. -/
theorem fit_failure_state_witness :
    ((if ([] : List String).isEmpty then ["rolls"] else []) ≠ []) ∧
    (fit unfitModelEx dsEx none ["rolls"] [] none).error = some PyExn.samplerException :=
  ⟨by decide, (fit_failure_state unfitModelEx dsEx none ["rolls"] [] (by decide)).1⟩

/-!
## C2 — `fit` does not clear the prediction cache
-/

/-- A stale cached prediction, supposedly computed under a superseded
posterior. -/
noncomputable def stalePredictionEx : Prediction :=
  { probability := 9 / 10
    uncertainty := 1 / 10
    features_used := ["rolls", "freq"]
    computation_time := 0 }

/-- A fitted model holding `stalePredictionEx` in its prediction cache. -/
noncomputable def fittedModelEx : ModelState :=
  { control_features := ["freq"]
    interactions := []
    is_baseline_model := false
    dataset := some dsEx
    feature_names := some ["rolls", "freq"]
    selected_features := ["rolls", "freq"]
    fit_result := some { beta := [[1]], gamma := [[1]] }
    feature_weights := none
    feature_extractor := some (fun _ => [])
    prediction_cache := [(("ab", "cd"), stalePredictionEx)] }

/-- C2 (code bug): refitting `fittedModelEx` with a fresh posterior
succeeds, yet leaves the prediction cache untouched, and the next
`predict_preference` call for the cached pair returns the stale cached
prediction — computed under the superseded posterior — without consulting
the new one. -/
theorem fit_keeps_stale_prediction_cache :
    (fit fittedModelEx dsEx (some (fun _ => [])) [] ["rolls"]
        (some { beta := [[-1]], gamma := [[-1]] })).error = none ∧
    (fit fittedModelEx dsEx (some (fun _ => [])) [] ["rolls"]
        (some { beta := [[-1]], gamma := [[-1]] })).state.prediction_cache =
      fittedModelEx.prediction_cache ∧
    predictPreference
        (fit fittedModelEx dsEx (some (fun _ => [])) [] ["rolls"]
          (some { beta := [[-1]], gamma := [[-1]] })).state "ab" "cd" =
      .ok (stalePredictionEx,
        (fit fittedModelEx dsEx (some (fun _ => [])) [] ["rolls"]
          (some { beta := [[-1]], gamma := [[-1]] })).state) := by
  refine ⟨rfl, rfl, ?_⟩
  have hab : "ab".length = 2 := rfl
  have hcd : "cd".length = 2 := rfl
  simp only [predictPreference, fit, fittedModelEx]
  norm_num [predictFitted, cacheGet, List.find?, hab, hcd]

/-!
## C3 — query operations on an unfit model
-/

/-- Counterexample to C3 at a concrete input: on an unfit model, `evaluate`
does not fail with `NotFittedError` — its internal
`RuntimeError("Model must be fit before evaluation")` is caught by the
method's blanket `except`, which returns the chance-level defaults
instead. -/
theorem evaluate_unfit_counterexample :
    evaluate (fun _ _ => 0) unfitModelEx dsEx =
      ({ accuracy := 1 / 2, auc := 1 / 2, n_evaluated := 0 }, unfitModelEx) := rfl

/-- C3 as amended: while the model is unfit, `predict_preference` and
`get_feature_weights` fail with `NotFittedError`, but `evaluate` swallows
its guard exception and returns accuracy 1/2, AUC 1/2 and zero evaluated
preferences without raising. -/
theorem unfit_query_operations (s : ModelState) (d : Dataset)
    (aucScore : List ℝ → List ℝ → ℝ) (b1 b2 : String) (includeControl : Bool)
    (h : s.fit_result = none) :
    predictPreference s b1 b2 = .error .notFittedError ∧
    getFeatureWeights s includeControl = .error .notFittedError ∧
    evaluate aucScore s d = ({ accuracy := 1 / 2, auc := 1 / 2, n_evaluated := 0 }, s) := by
  refine ⟨?_, ?_, ?_⟩
  · simp only [predictPreference, h]
  · simp only [getFeatureWeights, h]
  · simp only [evaluate, h]

/-- Witness for C3 (amended) at a concrete unfit model. -/
theorem unfit_query_operations_witness :
    unfitModelEx.fit_result = none ∧
    predictPreference unfitModelEx "ab" "cd" = .error .notFittedError :=
  ⟨rfl, (unfit_query_operations unfitModelEx dsEx (fun _ _ => 0) "ab" "cd" false rfl).1⟩

/-!
## C5 — the per-candidate fits corrupt the round-robin selection
-/

/-- C5 (code bug): at a concrete run with one control feature `c0` and two
candidates `a`, `b`, the candidate evaluations of the first round absorb
*every* candidate into `selected_features` (each `self.fit` call overwrites
it with the candidate-augmented set), so the subsequent
`selected_features.append(best_feature)` duplicates the round winner and
the loop then finds no remaining candidate: the returned list is
`[a, b, c0, b]` — it does contain every control feature and only supplied
candidates, but it has a duplicate entry, and the rounds did not each
append exactly one remaining candidate (one round absorbed both). -/
theorem selectFeatures_duplicates_winner :
    selectFeatures constMetricsEx ["c0"] ["c0", "a", "b"] =
      .ok ["a", "b", "c0", "b"] ∧
    ¬ (["a", "b", "c0", "b"] : List String).Nodup := by
  decide


/-!
## C6 — logistic-link consistency of `predict_preference`

Hypotheses of the main theorem: the model is fitted, its prediction cache is
empty (as right after `__init__` or `clear_caches`), the external feature
provider never emits a key that collides with an interaction's composite
name (in the repository, `extract_bigram_features` returns base features
only), and the configured interactions have distinct composite names.
-/

/-- The logistic link maps a negated effect to the complementary
probability. -/
theorem logistic_neg (x : ℝ) : logistic (-x) = 1 - logistic x := by
  unfold logistic
  rw [neg_neg]
  have h1 : (1 : ℝ) + Real.exp (-x) ≠ 0 := by positivity
  have h2 : (1 : ℝ) + Real.exp x ≠ 0 := by positivity
  field_simp
  ring_nf
  rw [← Real.exp_add]
  simp
  ring

/-- A dot product with a negated left vector negates. -/
theorem dotProd_neg (xs ys : List ℝ) :
    dotProd (xs.map (fun a => -a)) ys = -dotProd xs ys := by
  induction xs generalizing ys with
  | nil => simp [dotProd]
  | cons x xs ih =>
      rcases ys with _ | ⟨y, ys⟩
      · simp [dotProd]
      · simp only [dotProd, List.map_cons, List.zipWith_cons_cons, List.sum_cons] at *
        rw [ih ys]
        ring

/-- The mean of pointwise-negated values negates. -/
theorem listMean_neg (xs : List ℝ) :
    listMean (xs.map (fun a => -a)) = -listMean xs := by
  unfold listMean
  rw [List.length_map]
  have hsum : (List.map (fun a => -a) xs).sum = -xs.sum := by
    induction xs with
    | nil => simp
    | cons x xs ih =>
        simp only [List.map_cons, List.sum_cons, ih]
        ring
  rw [hsum, neg_div]

/-- The mean of a constant-zero map is zero. -/
theorem listMean_zero_map {α : Type} (l : List α) (g : α → ℝ) (hg : ∀ a ∈ l, g a = 0) :
    listMean (l.map g) = 0 := by
  unfold listMean
  rw [List.sum_eq_zero]
  · simp
  · intro x hx
    rcases List.mem_map.mp hx with ⟨a, ha, rfl⟩
    exact hg a ha

/-- Lookup through a fresh binding for a different key. -/
theorem lookupF_insert_ne (m : FeatureMap) (k n : String) (v : ℝ) (h : k ≠ n) :
    lookupF (insertF m k v) n = lookupF m n := by
  simp only [lookupF, insertF, List.find?]
  rw [show (decide ((k, v).1 = n)) = false by simpa using h]

/-- When every component is present, the comprehension succeeds. -/
theorem lookupAll_isSome_of_all_present (m : FeatureMap) (inter : List String)
    (h : inter.any (fun c => (lookupF m c).isNone) = false) :
    ∃ vs, lookupAll m inter = some vs := by
  induction inter with
  | nil => exact ⟨[], rfl⟩
  | cons c cs ih =>
      simp only [List.any_cons, Bool.or_eq_false_iff] at h
      obtain ⟨vs, hvs⟩ := ih h.2
      rcases hv : lookupF m c with _ | v
      · rw [hv] at h
        simp at h
      · exact ⟨v :: vs, by simp only [lookupAll, hv, hvs]⟩

/-- When the comprehension succeeds, every component was present. -/
theorem all_present_of_lookupAll_isSome (m : FeatureMap) (inter : List String)
    (vs : List ℝ) (h : lookupAll m inter = some vs) :
    inter.any (fun c => (lookupF m c).isNone) = false := by
  induction inter generalizing vs with
  | nil => rfl
  | cons c cs ih =>
      simp only [lookupAll] at h
      rcases hv : lookupF m c with _ | v
      · rw [hv] at h
        cases h
      · rcases hvs : lookupAll m cs with _ | ws
        · rw [hv, hvs] at h
          cases h
        · simp only [List.any_cons, Bool.or_eq_false_iff, hv]
          exact ⟨rfl, ih ws hvs⟩

/-- Swapping the dicts negates each difference (and fails exactly when the
original fails). -/
theorem diffsOf_swap (f1 f2 : FeatureMap) (L : List String) :
    diffsOf f2 f1 L = (diffsOf f1 f2 L).map (fun l => l.map (fun a => -a)) := by
  induction L with
  | nil => rfl
  | cons f fs ih =>
      simp only [diffsOf, ih]
      rcases h1 : lookupF f1 f with _ | a <;> rcases h2 : lookupF f2 f with _ | b <;>
        rcases h3 : diffsOf f1 f2 fs with _ | ds <;> simp

/-- A feature missing from either dict makes the difference list fail. -/
theorem diffsOf_none_of_mem (f1 f2 : FeatureMap) (L : List String) (n : String)
    (hn : n ∈ L) (h : lookupF f1 n = none ∨ lookupF f2 n = none) :
    diffsOf f1 f2 L = none := by
  induction L with
  | nil => cases hn
  | cons f fs ih =>
      rcases List.mem_cons.mp hn with h1 | h2
      · subst h1
        rcases h with h | h <;> simp [diffsOf, h]
      · simp only [diffsOf, ih h2]
        rcases lookupF f1 f with _ | a <;> rcases lookupF f2 f with _ | b <;> rfl

/-- Difference of a dict with itself: all zeros (when it succeeds). -/
theorem diffsOf_self (f : FeatureMap) (L : List String) (ds : List ℝ)
    (h : diffsOf f f L = some ds) : ∀ d ∈ ds, d = 0 := by
  induction L generalizing ds with
  | nil =>
      simp only [diffsOf] at h
      injection h with h
      subst h
      intro d hd
      cases hd
  | cons g gs ih =>
      simp only [diffsOf] at h
      rcases hv : lookupF f g with _ | a
      · rw [hv] at h
        cases h
      · rcases hds : diffsOf f f gs with _ | es
        · rw [hv, hds] at h
          cases h
        · rw [hv, hds] at h
          injection h with h
          subst h
          intro d hd
          rcases List.mem_cons.mp hd with h1 | h2
          · rw [h1]
            ring
          · exact ih es hds d h2

/-- A dot product with an all-zero left vector is zero. -/
theorem dotProd_zero_left (xs ys : List ℝ) (h : ∀ x ∈ xs, x = 0) :
    dotProd xs ys = 0 := by
  induction xs generalizing ys with
  | nil => simp [dotProd]
  | cons x xs ih =>
      rcases ys with _ | ⟨y, ys⟩
      · simp [dotProd]
      · simp only [dotProd, List.zipWith_cons_cons, List.sum_cons]
        rw [h x (List.mem_cons_self x xs), zero_mul, zero_add]
        exact ih ys (fun t ht => h t (List.mem_cons_of_mem x ht))

/-- A key absent from both dicts and different from every pending
interaction name stays absent through the interaction loop. -/
theorem augment_lookup_none (sel : List String) (inters : List (List String))
    (p q p' q' : FeatureMap) (n : String)
    (hn : ∀ inter ∈ inters, interName inter ≠ n)
    (hp : lookupF p n = none) (hq : lookupF q n = none)
    (hres : augmentInteractions sel inters p q = some (p', q')) :
    lookupF p' n = none ∧ lookupF q' n = none := by
  induction inters generalizing p q with
  | nil =>
      simp only [augmentInteractions] at hres
      injection hres with h
      injection h with h1 h2
      rw [← h1, ← h2]
      exact ⟨hp, hq⟩
  | cons inter rest ih =>
      simp only [augmentInteractions] at hres
      by_cases h1 : inter.any (fun c => (lookupF p c).isNone) = true
      · rw [if_pos h1] at hres
        exact ih p q (fun i hi => hn i (List.mem_cons_of_mem _ hi)) hp hq hres
      · rw [if_neg h1] at hres
        by_cases h2 : interName inter ∈ sel
        · rw [if_pos h2] at hres
          rcases hv1 : lookupAll p inter with _ | vs1
          · rw [hv1] at hres
            cases hres
          · rcases hv2 : lookupAll q inter with _ | vs2
            · rw [hv1, hv2] at hres
              cases hres
            · rw [hv1, hv2] at hres
              have hne := hn inter (List.mem_cons_self _ _)
              exact ih (insertF p (interName inter) vs1.prod)
                (insertF q (interName inter) vs2.prod)
                (fun i hi => hn i (List.mem_cons_of_mem _ hi))
                (by rw [lookupF_insert_ne _ _ _ _ hne]; exact hp)
                (by rw [lookupF_insert_ne _ _ _ _ hne]; exact hq) hres
        · rw [if_neg h2] at hres
          exact ih p q (fun i hi => hn i (List.mem_cons_of_mem _ hi)) hp hq hres

/-- Running the interaction loop on a dict against itself keeps the two
sides equal. -/
theorem augment_same (sel : List String) (inters : List (List String)) (f : FeatureMap) :
    augmentInteractions sel inters f f = none ∨
    ∃ g, augmentInteractions sel inters f f = some (g, g) := by
  induction inters generalizing f with
  | nil => exact Or.inr ⟨f, rfl⟩
  | cons inter rest ih =>
      simp only [augmentInteractions]
      by_cases h1 : inter.any (fun c => (lookupF f c).isNone) = true
      · rw [if_pos h1]
        exact ih f
      · rw [if_neg h1]
        by_cases h2 : interName inter ∈ sel
        · rw [if_pos h2]
          have h1' : inter.any (fun c => (lookupF f c).isNone) = false := by
            simpa using h1
          obtain ⟨vs, hvs⟩ := lookupAll_isSome_of_all_present f inter h1'
          rw [hvs]
          exact ih (insertF f (interName inter) vs.prod)
        · rw [if_neg h2]
          exact ih f

/-- The heart of C6: swapping the two bigrams' feature dicts through the
interaction loop either fails on both sides, or succeeds with the two
result dicts swapped, or fails on exactly one side — in which case the
successful side carries a *selected* feature name that is absent from both
result dicts, so its prediction path fails at the difference stage. -/
theorem augment_swap (sel : List String) (inters : List (List String))
    (p q : FeatureMap)
    (hp : ∀ inter ∈ inters, lookupF p (interName inter) = none)
    (hq : ∀ inter ∈ inters, lookupF q (interName inter) = none)
    (hnd : (inters.map interName).Nodup) :
    (∃ p' q', augmentInteractions sel inters p q = some (p', q') ∧
      augmentInteractions sel inters q p = some (q', p')) ∨
    (augmentInteractions sel inters p q = none ∧
      augmentInteractions sel inters q p = none) ∨
    (∃ q' p' n, augmentInteractions sel inters p q = none ∧
      augmentInteractions sel inters q p = some (q', p') ∧
      n ∈ sel ∧ lookupF q' n = none ∧ lookupF p' n = none) ∨
    (∃ p' q' n, augmentInteractions sel inters p q = some (p', q') ∧
      augmentInteractions sel inters q p = none ∧
      n ∈ sel ∧ lookupF p' n = none ∧ lookupF q' n = none) := by
  induction inters generalizing p q with
  | nil => exact Or.inl ⟨p, q, rfl, rfl⟩
  | cons inter rest ih =>
      have hp' : ∀ i ∈ rest, lookupF p (interName i) = none :=
        fun i hi => hp i (List.mem_cons_of_mem _ hi)
      have hq' : ∀ i ∈ rest, lookupF q (interName i) = none :=
        fun i hi => hq i (List.mem_cons_of_mem _ hi)
      have hnd2 : (interName inter ∉ rest.map interName) ∧ (rest.map interName).Nodup := by
        rw [List.map_cons, List.nodup_cons] at hnd
        exact hnd
      have hhead := hnd2.1
      have hnd' := hnd2.2
      simp only [augmentInteractions]
      by_cases h1 : inter.any (fun c => (lookupF p c).isNone) = true
      · by_cases h2 : inter.any (fun c => (lookupF q c).isNone) = true
        · rw [if_pos h1, if_pos h2]
          exact ih p q hp' hq' hnd'
        · rw [if_pos h1, if_neg h2]
          by_cases h3 : interName inter ∈ sel
          · rw [if_pos h3]
            have h2' : inter.any (fun c => (lookupF q c).isNone) = false := by simpa using h2
            obtain ⟨vs2, hvs2⟩ := lookupAll_isSome_of_all_present q inter h2'
            have hvp : lookupAll p inter = none := by
              rcases hv : lookupAll p inter with _ | vs
              · rfl
              · exact absurd (all_present_of_lookupAll_isSome p inter vs hv) (by simpa using h1)
            rw [hvs2, hvp]
            rcases hres : augmentInteractions sel rest p q with _ | pq
            · exact Or.inr (Or.inl ⟨rfl, rfl⟩)
            · rcases pq with ⟨p', q'⟩
              have habs := augment_lookup_none sel rest p q p' q' (interName inter)
                (fun i hi he => hhead (by rw [← he]; exact List.mem_map_of_mem interName hi))
                (hp inter (List.mem_cons_self _ _)) (hq inter (List.mem_cons_self _ _)) hres
              exact Or.inr (Or.inr (Or.inr
                ⟨p', q', interName inter, rfl, rfl, h3, habs.1, habs.2⟩))
          · rw [if_neg h3]
            exact ih p q hp' hq' hnd'
      · by_cases h2 : inter.any (fun c => (lookupF q c).isNone) = true
        · rw [if_neg h1, if_pos h2]
          by_cases h3 : interName inter ∈ sel
          · rw [if_pos h3]
            have h1' : inter.any (fun c => (lookupF p c).isNone) = false := by simpa using h1
            obtain ⟨vs1, hvs1⟩ := lookupAll_isSome_of_all_present p inter h1'
            have hvq : lookupAll q inter = none := by
              rcases hv : lookupAll q inter with _ | vs
              · rfl
              · exact absurd (all_present_of_lookupAll_isSome q inter vs hv) (by simpa using h2)
            rw [hvs1, hvq]
            rcases hres : augmentInteractions sel rest q p with _ | qp
            · exact Or.inr (Or.inl ⟨rfl, rfl⟩)
            · rcases qp with ⟨q', p'⟩
              have habs := augment_lookup_none sel rest q p q' p' (interName inter)
                (fun i hi he => hhead (by rw [← he]; exact List.mem_map_of_mem interName hi))
                (hq inter (List.mem_cons_self _ _)) (hp inter (List.mem_cons_self _ _)) hres
              exact Or.inr (Or.inr (Or.inl
                ⟨q', p', interName inter, rfl, rfl, h3, habs.1, habs.2⟩))
          · rw [if_neg h3]
            exact ih p q hp' hq' hnd'
        · rw [if_neg h1, if_neg h2]
          by_cases h3 : interName inter ∈ sel
          · simp only [if_pos h3]
            have h1' : inter.any (fun c => (lookupF p c).isNone) = false := by simpa using h1
            have h2' : inter.any (fun c => (lookupF q c).isNone) = false := by simpa using h2
            obtain ⟨vs1, hvs1⟩ := lookupAll_isSome_of_all_present p inter h1'
            obtain ⟨vs2, hvs2⟩ := lookupAll_isSome_of_all_present q inter h2'
            rw [hvs1, hvs2]
            have hinsp : ∀ i ∈ rest,
                lookupF (insertF p (interName inter) vs1.prod) (interName i) = none := by
              intro i hi
              have hne : interName inter ≠ interName i :=
                fun he => hhead (by rw [he]; exact List.mem_map_of_mem interName hi)
              rw [lookupF_insert_ne _ _ _ _ hne]
              exact hp' i hi
            have hinsq : ∀ i ∈ rest,
                lookupF (insertF q (interName inter) vs2.prod) (interName i) = none := by
              intro i hi
              have hne : interName inter ≠ interName i :=
                fun he => hhead (by rw [he]; exact List.mem_map_of_mem interName hi)
              rw [lookupF_insert_ne _ _ _ _ hne]
              exact hq' i hi
            exact ih (insertF p (interName inter) vs1.prod)
              (insertF q (interName inter) vs2.prod) hinsp hinsq hnd'
          · simp only [if_neg h3]
            exact ih p q hp' hq' hnd'

/-- Equation for `effectOfPair` when both difference vectors succeed. -/
theorem effectOfPair_eq_some (s : ModelState) (post : Posterior) (g1 g2 : FeatureMap)
    (md cd : List ℝ)
    (hmd : diffsOf g1 g2 (s.selected_features.filter
      (fun f => f ∉ s.control_features)) = some md)
    (hcd : diffsOf g1 g2 s.control_features = some cd) :
    effectOfPair s post g1 g2 = some (effectFromDiffs s post md cd) := by
  unfold effectOfPair
  rw [hmd, hcd]

/-- Equation for `effectOfPair` when the main difference vector fails. -/
theorem effectOfPair_eq_none_main (s : ModelState) (post : Posterior) (g1 g2 : FeatureMap)
    (hmd : diffsOf g1 g2 (s.selected_features.filter
      (fun f => f ∉ s.control_features)) = none) :
    effectOfPair s post g1 g2 = none := by
  unfold effectOfPair
  rw [hmd]

/-- Equation for `effectOfPair` when the control difference vector fails. -/
theorem effectOfPair_eq_none_ctrl (s : ModelState) (post : Posterior) (g1 g2 : FeatureMap)
    (hcd : diffsOf g1 g2 s.control_features = none) :
    effectOfPair s post g1 g2 = none := by
  unfold effectOfPair
  rcases hmd : diffsOf g1 g2 (s.selected_features.filter
      (fun f => f ∉ s.control_features)) with _ | md
  · rfl
  · rw [hcd]

/-- Negating both difference vectors negates the total effect. -/
theorem effectFromDiffs_fst_neg (s : ModelState) (post : Posterior) (md cd : List ℝ) :
    (effectFromDiffs s post (md.map (fun a => -a)) (cd.map (fun a => -a))).1 =
      -(effectFromDiffs s post md cd).1 := by
  unfold effectFromDiffs
  have hmneg : post.beta.map (fun row => dotProd (md.map (fun a => -a)) row) =
      (post.beta.map (fun row => dotProd md row)).map (fun a => -a) := by
    rw [List.map_map]
    exact List.map_congr_left (fun row _ => dotProd_neg md row)
  have hcneg : post.gamma.map (fun row => dotProd (cd.map (fun a => -a)) row) =
      (post.gamma.map (fun row => dotProd cd row)).map (fun a => -a) := by
    rw [List.map_map]
    exact List.map_congr_left (fun row _ => dotProd_neg cd row)
  simp only [hmneg, hcneg, listMean_neg]
  split_ifs <;> ring

/-- All-zero difference vectors give a zero total effect. -/
theorem effectFromDiffs_fst_zero (s : ModelState) (post : Posterior) (md cd : List ℝ)
    (hmd : ∀ x ∈ md, x = 0) (hcd : ∀ x ∈ cd, x = 0) :
    (effectFromDiffs s post md cd).1 = 0 := by
  unfold effectFromDiffs
  have hmain : listMean (post.beta.map (fun row => dotProd md row)) = 0 :=
    listMean_zero_map post.beta _ (fun row _ => dotProd_zero_left md row hmd)
  have hctrl : listMean (post.gamma.map (fun row => dotProd cd row)) = 0 :=
    listMean_zero_map post.gamma _ (fun row _ => dotProd_zero_left cd row hcd)
  simp only [hmain, hctrl]
  split_ifs <;> ring

/-- The total effect of a bigram against itself, when it computes at all,
is zero: every feature difference vanishes. -/
theorem coreEffect_self (s : ModelState) (post : Posterior) (ext : String → FeatureMap)
    (b : String) :
    coreEffect s post ext b b = none ∨ ∃ u, coreEffect s post ext b b = some (0, u) := by
  unfold coreEffect
  rcases augment_same s.selected_features s.interactions (ext b) with h | ⟨g, h⟩
  · rw [h]
    exact Or.inl rfl
  · rw [h]
    show effectOfPair s post g g = none ∨ ∃ u, effectOfPair s post g g = some (0, u)
    rcases hmd : diffsOf g g (s.selected_features.filter
        (fun f => f ∉ s.control_features)) with _ | md
    · exact Or.inl (effectOfPair_eq_none_main s post g g hmd)
    · rcases hcd : diffsOf g g s.control_features with _ | cd
      · exact Or.inl (effectOfPair_eq_none_ctrl s post g g hcd)
      · refine Or.inr ⟨(effectFromDiffs s post md cd).2, ?_⟩
        rw [effectOfPair_eq_some s post g g md cd hmd hcd]
        have h0 := effectFromDiffs_fst_zero s post md cd
          (diffsOf_self g _ md hmd) (diffsOf_self g _ cd hcd)
        rw [← h0]

/-- Swapping the two bigrams either fails the computation on both sides or
negates the total effect. -/
theorem coreEffect_swap (s : ModelState) (post : Posterior) (ext : String → FeatureMap)
    (b1 b2 : String)
    (hext : ∀ b inter, inter ∈ s.interactions → lookupF (ext b) (interName inter) = none)
    (hnd : (s.interactions.map interName).Nodup) :
    (coreEffect s post ext b1 b2 = none ∧ coreEffect s post ext b2 b1 = none) ∨
    (∃ t u u', coreEffect s post ext b1 b2 = some (t, u) ∧
      coreEffect s post ext b2 b1 = some (-t, u')) := by
  have hswap := augment_swap s.selected_features s.interactions (ext b1) (ext b2)
    (fun i hi => hext b1 i hi) (fun i hi => hext b2 i hi) hnd
  unfold coreEffect
  rcases hswap with ⟨p', q', h12, h21⟩ | ⟨h12, h21⟩ |
      ⟨q', p', n, h12, h21, hnsel, hq', hp'⟩ | ⟨p', q', n, h12, h21, hnsel, hp', hq'⟩
  · rw [h12, h21]
    show (effectOfPair s post p' q' = none ∧ effectOfPair s post q' p' = none) ∨
      (∃ t u u', effectOfPair s post p' q' = some (t, u) ∧
        effectOfPair s post q' p' = some (-t, u'))
    rcases hmd : diffsOf p' q' (s.selected_features.filter
        (fun f => f ∉ s.control_features)) with _ | md
    · have hmd' : diffsOf q' p' (s.selected_features.filter
          (fun f => f ∉ s.control_features)) = none := by
        rw [diffsOf_swap, hmd]
        rfl
      exact Or.inl ⟨effectOfPair_eq_none_main s post p' q' hmd,
        effectOfPair_eq_none_main s post q' p' hmd'⟩
    · have hmd' : diffsOf q' p' (s.selected_features.filter
          (fun f => f ∉ s.control_features)) = some (md.map (fun a => -a)) := by
        rw [diffsOf_swap, hmd]
        rfl
      rcases hcd : diffsOf p' q' s.control_features with _ | cd
      · have hcd' : diffsOf q' p' s.control_features = none := by
          rw [diffsOf_swap, hcd]
          rfl
        exact Or.inl ⟨effectOfPair_eq_none_ctrl s post p' q' hcd,
          effectOfPair_eq_none_ctrl s post q' p' hcd'⟩
      · have hcd' : diffsOf q' p' s.control_features = some (cd.map (fun a => -a)) := by
          rw [diffsOf_swap, hcd]
          rfl
        refine Or.inr ⟨(effectFromDiffs s post md cd).1, (effectFromDiffs s post md cd).2,
          (effectFromDiffs s post (md.map (fun a => -a)) (cd.map (fun a => -a))).2, ?_, ?_⟩
        · rw [effectOfPair_eq_some s post p' q' md cd hmd hcd]
        · rw [effectOfPair_eq_some s post q' p' _ _ hmd' hcd',
            ← effectFromDiffs_fst_neg s post md cd]
  · rw [h12, h21]
    exact Or.inl ⟨rfl, rfl⟩
  · rw [h12, h21]
    refine Or.inl ⟨rfl, ?_⟩
    show effectOfPair s post q' p' = none
    by_cases hnc : n ∈ s.control_features
    · exact effectOfPair_eq_none_ctrl s post q' p'
        (diffsOf_none_of_mem q' p' _ n hnc (Or.inl hq'))
    · have hmm : n ∈ s.selected_features.filter (fun f => f ∉ s.control_features) :=
        List.mem_filter.mpr ⟨hnsel, by simpa using hnc⟩
      exact effectOfPair_eq_none_main s post q' p'
        (diffsOf_none_of_mem q' p' _ n hmm (Or.inl hq'))
  · rw [h12, h21]
    refine Or.inl ⟨?_, rfl⟩
    show effectOfPair s post p' q' = none
    by_cases hnc : n ∈ s.control_features
    · exact effectOfPair_eq_none_ctrl s post p' q'
        (diffsOf_none_of_mem p' q' _ n hnc (Or.inl hp'))
    · have hmm : n ∈ s.selected_features.filter (fun f => f ∉ s.control_features) :=
        List.mem_filter.mpr ⟨hnsel, by simpa using hnc⟩
      exact effectOfPair_eq_none_main s post p' q'
        (diffsOf_none_of_mem p' q' _ n hmm (Or.inl hp'))

/-- Cache lookup in an empty cache misses. -/
theorem cacheGet_nil (k : String × String) : cacheGet [] k = none := rfl

/-- Cache lookup right after storing the same key. -/
theorem cacheGet_cacheSet_same (c : PredictionCache) (k : String × String)
    (v : Prediction) : cacheGet (cacheSet c k v) k = some v := by
  simp [cacheGet, cacheSet, List.find?]

/-- Lookup of a different key in a one-entry cache misses. -/
theorem cacheGet_singleton_ne (k k' : String × String) (v : Prediction)
    (h : k' ≠ k) : cacheGet [(k, v)] k' = none := by
  simp only [cacheGet, List.find?]
  rw [show (decide ((k, v).1 = k')) = false by simpa using fun he => h he.symm]
  rfl

/-- The logistic link at zero effect. -/
theorem logistic_zero : logistic 0 = 1 / 2 := by
  unfold logistic
  rw [neg_zero, Real.exp_zero]
  norm_num

/-- `predict_preference` on a malformed bigram pair: neutral. -/
theorem predictPreference_eq_badlen (s : ModelState) (post : Posterior) (b1 b2 : String)
    (hfit : s.fit_result = some post) (hlen : b1.length ≠ 2 ∨ b2.length ≠ 2) :
    predictPreference s b1 b2 = .ok (neutralPrediction, s) := by
  unfold predictPreference
  rw [hfit]
  show predictFitted s post b1 b2 = _
  unfold predictFitted
  rw [if_pos hlen]

/-- `predict_preference` on a cache hit: the cached prediction, state
untouched. -/
theorem predictPreference_eq_hit (s : ModelState) (post : Posterior) (b1 b2 : String)
    (p : Prediction) (hfit : s.fit_result = some post)
    (hlen : ¬(b1.length ≠ 2 ∨ b2.length ≠ 2))
    (hhit : cacheGet s.prediction_cache (b1, b2) = some p) :
    predictPreference s b1 b2 = .ok (p, s) := by
  unfold predictPreference
  rw [hfit]
  show predictFitted s post b1 b2 = _
  unfold predictFitted
  rw [if_neg hlen, hhit]

/-- `predict_preference` with no selected main feature on a non-baseline
model: neutral. -/
theorem predictPreference_eq_nomain (s : ModelState) (post : Posterior) (b1 b2 : String)
    (ext : String → FeatureMap) (hfit : s.fit_result = some post)
    (hlen : ¬(b1.length ≠ 2 ∨ b2.length ≠ 2))
    (hmiss : cacheGet s.prediction_cache (b1, b2) = none)
    (hext : s.feature_extractor = some ext)
    (hmb : (s.selected_features.filter (fun f => f ∉ s.control_features)).isEmpty
      ∧ ¬ s.is_baseline_model) :
    predictPreference s b1 b2 = .ok (neutralPrediction, s) := by
  unfold predictPreference
  rw [hfit]
  show predictFitted s post b1 b2 = _
  unfold predictFitted
  rw [if_neg hlen, hmiss]
  show predictUncached s post b1 b2 = _
  unfold predictUncached
  rw [hext]
  show predictWithExtractor s post ext b1 b2 = _
  unfold predictWithExtractor
  rw [if_pos hmb]

/-- `predict_preference` when the effect computation raises: neutral, not
cached. -/
theorem predictPreference_eq_fail (s : ModelState) (post : Posterior) (b1 b2 : String)
    (ext : String → FeatureMap) (hfit : s.fit_result = some post)
    (hlen : ¬(b1.length ≠ 2 ∨ b2.length ≠ 2))
    (hmiss : cacheGet s.prediction_cache (b1, b2) = none)
    (hext : s.feature_extractor = some ext)
    (hmb : ¬((s.selected_features.filter (fun f => f ∉ s.control_features)).isEmpty
      ∧ ¬ s.is_baseline_model))
    (hcore : coreEffect s post ext b1 b2 = none) :
    predictPreference s b1 b2 = .ok (neutralPrediction, s) := by
  unfold predictPreference
  rw [hfit]
  show predictFitted s post b1 b2 = _
  unfold predictFitted
  rw [if_neg hlen, hmiss]
  show predictUncached s post b1 b2 = _
  unfold predictUncached
  rw [hext]
  show predictWithExtractor s post ext b1 b2 = _
  unfold predictWithExtractor
  rw [if_neg hmb, hcore]

/-- `predict_preference` on a successful computation: the logistic-linked
prediction, cached. -/
theorem predictPreference_eq_success (s : ModelState) (post : Posterior) (b1 b2 : String)
    (ext : String → FeatureMap) (tu : ℝ × ℝ) (hfit : s.fit_result = some post)
    (hlen : ¬(b1.length ≠ 2 ∨ b2.length ≠ 2))
    (hmiss : cacheGet s.prediction_cache (b1, b2) = none)
    (hext : s.feature_extractor = some ext)
    (hmb : ¬((s.selected_features.filter (fun f => f ∉ s.control_features)).isEmpty
      ∧ ¬ s.is_baseline_model))
    (hcore : coreEffect s post ext b1 b2 = some tu) :
    predictPreference s b1 b2 = .ok (predictSuccess s b1 b2 tu) := by
  unfold predictPreference
  rw [hfit]
  show predictFitted s post b1 b2 = _
  unfold predictFitted
  rw [if_neg hlen, hmiss]
  show predictUncached s post b1 b2 = _
  unfold predictUncached
  rw [hext]
  show predictWithExtractor s post ext b1 b2 = _
  unfold predictWithExtractor
  rw [if_neg hmb, hcore]

/-- C6: for a fitted model with a fresh prediction cache — and a feature
provider that emits no key colliding with a (duplicate-free) interaction
name, as the repository's extractor guarantees — two consecutive
`predict_preference` calls on the swapped pair return complementary
probabilities: `P(a≻b) = 1 − P(b≻a)` exactly, in the idealized real
arithmetic (the float implementation realizes it within numerical
tolerance).  The linear effect negates under the swap and the logistic link
maps a negated effect to the complementary probability; every
exception-to-neutral path degrades symmetrically to 1/2 on both sides. -/
theorem predict_preference_complement (s : ModelState) (post : Posterior)
    (ext : String → FeatureMap) (b1 b2 : String) (p1 p2 : Prediction)
    (s1 s2 : ModelState)
    (hfit : s.fit_result = some post)
    (hext : s.feature_extractor = some ext)
    (hcache : s.prediction_cache = [])
    (hnames : ∀ b inter, inter ∈ s.interactions → lookupF (ext b) (interName inter) = none)
    (hnd : (s.interactions.map interName).Nodup)
    (h1 : predictPreference s b1 b2 = .ok (p1, s1))
    (h2 : predictPreference s1 b2 b1 = .ok (p2, s2)) :
    p1.probability = 1 - p2.probability := by
  by_cases hlen : b1.length ≠ 2 ∨ b2.length ≠ 2
  · rw [predictPreference_eq_badlen s post b1 b2 hfit hlen] at h1
    rw [Except.ok.injEq, Prod.mk.injEq] at h1
    obtain ⟨hp1, hs1⟩ := h1
    rw [← hs1, predictPreference_eq_badlen s post b2 b1 hfit hlen.symm] at h2
    rw [Except.ok.injEq, Prod.mk.injEq] at h2
    obtain ⟨hp2, -⟩ := h2
    rw [← hp1, ← hp2]
    show (1 : ℝ) / 2 = 1 - 1 / 2
    norm_num
  · have hlen' : ¬(b2.length ≠ 2 ∨ b1.length ≠ 2) := fun h => hlen h.symm
    have hmiss1 : cacheGet s.prediction_cache (b1, b2) = none := by
      rw [hcache]
      exact cacheGet_nil _
    by_cases hmb : (s.selected_features.filter (fun f => f ∉ s.control_features)).isEmpty
        ∧ ¬ s.is_baseline_model
    · rw [predictPreference_eq_nomain s post b1 b2 ext hfit hlen hmiss1 hext hmb] at h1
      rw [Except.ok.injEq, Prod.mk.injEq] at h1
      obtain ⟨hp1, hs1⟩ := h1
      rw [← hs1, predictPreference_eq_nomain s post b2 b1 ext hfit hlen'
        (by rw [hcache]; exact cacheGet_nil _) hext hmb] at h2
      rw [Except.ok.injEq, Prod.mk.injEq] at h2
      obtain ⟨hp2, -⟩ := h2
      rw [← hp1, ← hp2]
      show (1 : ℝ) / 2 = 1 - 1 / 2
      norm_num
    · rcases coreEffect_swap s post ext b1 b2 hnames hnd with ⟨hc1, hc2⟩ |
          ⟨t, u, u', hc1, hc2⟩
      · rw [predictPreference_eq_fail s post b1 b2 ext hfit hlen hmiss1 hext hmb hc1] at h1
        rw [Except.ok.injEq, Prod.mk.injEq] at h1
        obtain ⟨hp1, hs1⟩ := h1
        rw [← hs1, predictPreference_eq_fail s post b2 b1 ext hfit hlen'
          (by rw [hcache]; exact cacheGet_nil _) hext hmb hc2] at h2
        rw [Except.ok.injEq, Prod.mk.injEq] at h2
        obtain ⟨hp2, -⟩ := h2
        rw [← hp1, ← hp2]
        show (1 : ℝ) / 2 = 1 - 1 / 2
        norm_num
      · rw [predictPreference_eq_success s post b1 b2 ext (t, u) hfit hlen hmiss1 hext
          hmb hc1] at h1
        rw [Except.ok.injEq, Prod.mk.injEq] at h1
        obtain ⟨hp1, hs1⟩ := h1
        by_cases hbb : b1 = b2
        · subst hbb
          have ht0 : t = 0 := by
            rcases coreEffect_self s post ext b1 with h0 | ⟨u0, h0⟩
            · rw [h0] at hc1
              cases hc1
            · rw [h0] at hc1
              injection hc1 with he
              rw [Prod.mk.injEq] at he
              exact he.1.symm
          have hs1fit : s1.fit_result = some post := by
            rw [← hs1]
            exact hfit
          have hhit : cacheGet s1.prediction_cache (b1, b1) = some (predictedOf s (t, u)) := by
            rw [← hs1]
            show cacheGet (cacheSet s.prediction_cache (b1, b1) (predictedOf s (t, u)))
              (b1, b1) = some (predictedOf s (t, u))
            exact cacheGet_cacheSet_same _ _ _
          rw [predictPreference_eq_hit s1 post b1 b1 (predictedOf s (t, u)) hs1fit
            hlen' hhit] at h2
          rw [Except.ok.injEq, Prod.mk.injEq] at h2
          obtain ⟨hp2, -⟩ := h2
          rw [← hp1, ← hp2]
          show (predictedOf s (t, u)).probability = 1 - (predictedOf s (t, u)).probability
          show logistic t = 1 - logistic t
          rw [ht0, logistic_zero]
          norm_num
        · have hs1fit : s1.fit_result = some post := by
            rw [← hs1]
            exact hfit
          have hs1ext : s1.feature_extractor = some ext := by
            rw [← hs1]
            exact hext
          have hmiss2 : cacheGet s1.prediction_cache (b2, b1) = none := by
            rw [← hs1]
            show cacheGet (cacheSet s.prediction_cache (b1, b2) (predictedOf s (t, u)))
              (b2, b1) = none
            rw [hcache]
            show cacheGet (cacheSet [] (b1, b2) (predictedOf s (t, u))) (b2, b1) = none
            have : cacheSet ([] : PredictionCache) (b1, b2) (predictedOf s (t, u)) =
                [((b1, b2), predictedOf s (t, u))] := rfl
            rw [this]
            exact cacheGet_singleton_ne _ _ _
              (fun he => hbb (by rw [Prod.mk.injEq] at he; exact he.2))
          have hmb2 : ¬((s1.selected_features.filter
              (fun f => f ∉ s1.control_features)).isEmpty ∧ ¬ s1.is_baseline_model) := by
            rw [← hs1]
            exact hmb
          have hcore2 : coreEffect s1 post ext b2 b1 = some (-t, u') := by
            rw [← hs1]
            exact hc2
          rw [predictPreference_eq_success s1 post b2 b1 ext (-t, u') hs1fit hlen'
            hmiss2 hs1ext hmb2 hcore2] at h2
          rw [Except.ok.injEq, Prod.mk.injEq] at h2
          obtain ⟨hp2, -⟩ := h2
          rw [← hp1, ← hp2]
          show (predictedOf s (t, u)).probability = 1 - (predictedOf s1 (-t, u')).probability
          show logistic t = 1 - logistic (-t)
          rw [logistic_neg]
          ring

/-- A minimal fitted model for the C6 witness: no interactions, empty
selection, empty cache, trivial extractor. -/
noncomputable def symModelEx : ModelState :=
  { control_features := []
    interactions := []
    is_baseline_model := false
    dataset := some dsEx
    feature_names := some []
    selected_features := []
    fit_result := some { beta := [[1]], gamma := [[1]] }
    feature_weights := none
    feature_extractor := some (fun _ => [])
    prediction_cache := [] }

/-- Witness for C6 at a concrete fitted model and bigram pair. -/
theorem predict_preference_complement_witness :
    (symModelEx.fit_result = some { beta := [[1]], gamma := [[1]] } ∧
      symModelEx.feature_extractor = some (fun _ => []) ∧
      symModelEx.prediction_cache = [] ∧
      (symModelEx.interactions.map interName).Nodup) ∧
    neutralPrediction.probability = 1 - neutralPrediction.probability :=
  ⟨⟨rfl, rfl, rfl, List.nodup_nil⟩,
   predict_preference_complement symModelEx { beta := [[1]], gamma := [[1]] }
     (fun _ => []) "ab" "cd" neutralPrediction neutralPrediction symModelEx symModelEx
     rfl rfl rfl (fun _ inter h => absurd h (List.not_mem_nil inter)) List.nodup_nil
     rfl rfl⟩

end Engram
